import Mathlib

/-!
Shallow embedding of the adaptive multi-peer media session engine
(`quality-manager.ts`, `webrtc-manager.ts`, `room/[id]/page.tsx`).

Bandwidth arithmetic is embedded in `ℚ` (the source computes over JS
numbers; every constant and comparison appearing in the verified claims
is exact in both semantics).  Each definition is annotated with the
source construct it translates.
-/

/-- `QualityTier.resolution` (`{ width, height }` in `types/room.ts`). -/
structure Resolution where
  width : Nat
  height : Nat
deriving DecidableEq, Repr

/-- `QualityTier` from `types/room.ts`: name, resolution, frame rate,
video/audio bitrate and total bandwidth (all bitrates in kbps). -/
structure QualityTier where
  name : String
  resolution : Resolution
  frameRate : Nat
  videoBitrate : Nat
  audioBitrate : Nat
  totalBandwidth : Nat
deriving DecidableEq, Repr

/-- `QUALITY_TIERS` from `quality-manager.ts`, verbatim. -/
def QUALITY_TIERS : List QualityTier :=
  [ { name := "1080p", resolution := ⟨1920, 1080⟩, frameRate := 30,
      videoBitrate := 2000, audioBitrate := 328, totalBandwidth := 2328 },
    { name := "720p", resolution := ⟨1280, 720⟩, frameRate := 30,
      videoBitrate := 1200, audioBitrate := 256, totalBandwidth := 1456 },
    { name := "480p", resolution := ⟨854, 480⟩, frameRate := 25,
      videoBitrate := 800, audioBitrate := 192, totalBandwidth := 992 },
    { name := "240p", resolution := ⟨426, 240⟩, frameRate := 20,
      videoBitrate := 400, audioBitrate := 128, totalBandwidth := 528 },
    { name := "144p", resolution := ⟨256, 144⟩, frameRate := 15,
      videoBitrate := 150, audioBitrate := 96, totalBandwidth := 246 },
    { name := "audio-only", resolution := ⟨0, 0⟩, frameRate := 0,
      videoBitrate := 0, audioBitrate := 64, totalBandwidth := 64 } ]

/-- `QUALITY_TIERS[QUALITY_TIERS.length - 1]`, the fallback used by
`getRecommendedTier` for very poor connections. -/
def floorTier : QualityTier := QUALITY_TIERS.getLast (by decide)

/-- `QUALITY_TIERS.find(tier => tier.name === quality)`, the lookup used by
the `QualityManager` constructor and by `setQuality`. -/
def findTier (quality : String) : Option QualityTier :=
  QUALITY_TIERS.find? (fun t => t.name == quality)

/-- Mutable fields of `QualityManager` other than the debounce timer
(the timer is modelled separately, see `TimedQM`). -/
structure QMState where
  currentTier : QualityTier
  bandwidthHistory : List ℚ
deriving DecidableEq, Repr

/-- Event emitted through `QualityManager.onQualityChange`. -/
inductive QMEvent where
  | qualityChange (tier : QualityTier)
deriving DecidableEq, Repr

/-- `QualityManager` constructor: `QUALITY_TIERS.find(...) || QUALITY_TIERS[1]`
with empty bandwidth history. -/
def QMState.init (initialQuality : String) : QMState :=
  { currentTier := (findTier initialQuality).getD (QUALITY_TIERS.get ⟨1, by decide⟩),
    bandwidthHistory := [] }

/-- History part of `updateBandwidth`: `push(bandwidth)` then
`if (length > 10) shift()`.  (The timer restart is modelled in
`recordSampleAt`.) -/
def QMState.updateBandwidth (st : QMState) (bandwidth : ℚ) : QMState :=
  let h := st.bandwidthHistory ++ [bandwidth]
  { st with bandwidthHistory := if h.length > 10 then h.tail else h }

/-- `getAverageBandwidth`: `0` on an empty history, else
`reduce((sum, bw) => sum + bw, 0) / length`. -/
def QMState.getAverageBandwidth (st : QMState) : ℚ :=
  if st.bandwidthHistory.length = 0 then 0
  else st.bandwidthHistory.sum / st.bandwidthHistory.length

/-- `getRecommendedTier`: buffer the estimate by 20% (`bandwidth * 0.8`),
return the first tier of `QUALITY_TIERS` whose `totalBandwidth` is at most
the buffered value, falling back to the last (audio-only) tier. -/
def getRecommendedTier (bandwidth : ℚ) : QualityTier :=
  let bufferedBandwidth := bandwidth * (4 / 5)
  match QUALITY_TIERS.find? (fun t => (t.totalBandwidth : ℚ) ≤ bufferedBandwidth) with
  | some tier => tier
  | none => floorTier

/-- `adjustQuality` (runs when the stabilization timer fires): recompute the
recommended tier from the average bandwidth; commit it and fire
`onQualityChange` only when its name differs from the current tier's. -/
def QMState.adjustQuality (st : QMState) : QMState × List QMEvent :=
  let recommendedTier := getRecommendedTier st.getAverageBandwidth
  if recommendedTier.name ≠ st.currentTier.name then
    ({ st with currentTier := recommendedTier }, [QMEvent.qualityChange recommendedTier])
  else (st, [])

/-- `getCurrentTier`. -/
def QMState.getCurrentTier (st : QMState) : QualityTier :=
  st.currentTier

/-- `setQuality`: look the name up in the catalog; on a hit commit the tier
and fire `onQualityChange`, on a miss do nothing. -/
def QMState.setQuality (st : QMState) (quality : String) : QMState × List QMEvent :=
  match findTier quality with
  | some tier => ({ st with currentTier := tier }, [QMEvent.qualityChange tier])
  | none => (st, [])

/-! ## Timed model of the debounce loop

`updateBandwidth` also clears any pending `stabilizationTimer` and arms a
fresh 2000 ms timeout that runs `adjustQuality`.  We model wall-clock time
as `ℕ` (milliseconds) and the single timer as an optional deadline. -/

/-- `QualityManager` together with its `stabilizationTimer` field: `none`
when no evaluation is pending, `some d` when the armed timeout would run
`adjustQuality` at time `d`. -/
structure TimedQM where
  qm : QMState
  timer : Option ℕ
deriving DecidableEq, Repr

/-- Full `updateBandwidth` at wall-clock time `t`: update the sample window
and (re)arm the single debounce timer for `t + 2000`
(`clearTimeout` of any pending timer followed by `setTimeout(..., 2000)`). -/
def recordSampleAt (st : TimedQM) (t : ℕ) (bandwidth : ℚ) : TimedQM :=
  { qm := st.qm.updateBandwidth bandwidth, timer := some (t + 2000) }

/-- Actions the event loop can deliver to the `QualityManager`: an
`updateBandwidth` call carrying a sample, or the expiry of a timeout.  A
timeout expiry only runs `adjustQuality` when the pending timer is exactly
the one armed for this instant (a cleared or superseded timeout never
runs). -/
inductive TAct where
  | sample (bandwidth : ℚ)
  | fire
deriving DecidableEq, Repr

/-- One event-loop step at wall-clock time `t`. -/
def stepTimed (st : TimedQM) (t : ℕ) : TAct → TimedQM × List QMEvent
  | TAct.sample bandwidth => (recordSampleAt st t bandwidth, [])
  | TAct.fire =>
    if st.timer = some t then
      ((⟨(st.qm.adjustQuality).1, none⟩ : TimedQM), (st.qm.adjustQuality).2)
    else (st, [])

/-- Run a timestamped action trace, tagging each emitted event with the
wall-clock time of the step that produced it. -/
def runTimed (st : TimedQM) : List (ℕ × TAct) → TimedQM × List (ℕ × QMEvent)
  | [] => (st, [])
  | (t, a) :: rest =>
    let p := stepTimed st t a
    let q := runTimed p.1 rest
    (q.1, p.2.map (fun e => (t, e)) ++ q.2)

/-- A trace is well formed relative to a start instant when its timestamps
are strictly increasing. -/
def wfTraceB : ℕ → List (ℕ × TAct) → Bool
  | _, [] => true
  | t0, (t, _) :: rest => decide (t0 < t) && wfTraceB t rest

/-! ## Operation sequences against a `QualityManager`

Public entry points that can change `currentTier`, used to state the
catalog-membership invariant. -/

/-- Public operations on a `QualityManager`: an `updateBandwidth` call, the
expiry of the debounce timer (running `adjustQuality`), or a `setQuality`
call. -/
inductive QMOp where
  | record (bandwidth : ℚ)
  | timerFire
  | setQ (quality : String)
deriving DecidableEq, Repr

/-- Apply one operation (events discarded). -/
def applyOp (st : QMState) : QMOp → QMState
  | QMOp.record bandwidth => st.updateBandwidth bandwidth
  | QMOp.timerFire => (st.adjustQuality).1
  | QMOp.setQ quality => (st.setQuality quality).1

/-- Run a sequence of operations left to right. -/
def runOps (st : QMState) : List QMOp → QMState
  | [] => st
  | op :: ops => runOps (applyOp st op) ops

/-! ## Session-level aggregation (`room/[id]/page.tsx`)

`onConnectionStatsUpdate(_peerId, stats)` overwrites the single
`connectionStats` React state with the reporting peer's numbers; the
`useEffect` on `connectionStats.bandwidth` then feeds that value to
`webrtcManager.adjustQuality`, i.e. to `qualityManager.updateBandwidth`. -/

/-- One `connection-stats-updated` report: the reporting peer's identifier
and its `stats.bandwidth` field (`none` when the field is absent,
as with the stub stats object of `getConnectionStats`). -/
structure StatsReport where
  peerId : String
  bandwidth : Option ℚ
deriving DecidableEq, Repr

/-- `stats.bandwidth || 1000`: a missing (or zero, i.e. falsy) bandwidth
field is replaced by the literal `1000`. -/
def orDefault1000 : Option ℚ → ℚ
  | some v => if v = 0 then 1000 else v
  | none => 1000

/-- The session-level bandwidth signal after a sequence of per-peer stats
reports: each report overwrites `connectionStats.bandwidth` with its own
value (the `_peerId` argument is ignored), so the final signal is the last
report's bandwidth. -/
def aggregatedSignal (reports : List StatsReport) (init : ℚ) : ℚ :=
  reports.foldl (fun _ r => orDefault1000 r.bandwidth) init

/-- Modelled from the spec: the aggregation policy of §4.4, which is absent
from the source (flagged in §9 "Aggregation ambiguity"): the signal fed to
`recordSample` is the minimum over each currently connected peer's latest
report. -/
def worstLinkSignal (reports : List StatsReport) : Option ℚ :=
  let pids := (reports.map (fun r => r.peerId)).dedup
  (pids.filterMap fun pid =>
    ((reports.filter fun r => r.peerId == pid).getLast?).map
      fun r => orDefault1000 r.bandwidth).min?

/-! ## Mesh peer table (`webrtc-manager.ts`) -/

/-- The fields of a `PeerConnection` record relevant to the peer table:
`id`, `isHost` and the `quality` name captured at creation time. -/
structure PeerEntry where
  id : String
  isHost : Bool
  quality : String
deriving DecidableEq, Repr

/-- The `WebRTCManager` state relevant to `createPeer`/`removePeer`: the
insertion-ordered `peers` map, the configured `maxPeers` cap, and the
quality manager's current tier name (read when a connection is created). -/
structure MeshState where
  peers : List (String × PeerEntry)
  maxPeers : ℕ
  currentQuality : String
deriving DecidableEq, Repr

/-- `removePeer`: destroy the connection and delete its map entry.  (The
`connected` flag and sampler interval are modelled in `MonState`.) -/
def meshRemovePeer (st : MeshState) (peerId : String) : MeshState :=
  { st with peers := st.peers.filter fun p => !(p.1 == peerId) }

/-- `createPeer(peerId, isInitiator)`: replace any prior entry for the same
identifier, build the new `PeerConnection` record and insert it.  The
source performs no capacity check against `config.maxPeers`. -/
def createPeer (st : MeshState) (peerId : String) (isInitiator : Bool) : MeshState :=
  let st1 := if st.peers.any (fun p => p.1 == peerId) then meshRemovePeer st peerId else st
  { st1 with
    peers := st1.peers ++ [(peerId, { id := peerId, isHost := isInitiator, quality := st.currentQuality })] }

/-! ## Capture acquisition (`setupLocalStream`) -/

/-- A media stream, reduced to which track kinds it carries. -/
structure MStream where
  hasVideo : Bool
  hasAudio : Bool
deriving DecidableEq, Repr

/-- `MediaStreamConstraints` as used by the engine: the ideal video
parameters (`none` = `video: false`) and whether audio is requested. -/
structure Constraints where
  video : Option (ℕ × ℕ × ℕ)
  audio : Bool
deriving DecidableEq, Repr

/-- `QualityManager.getConstraints()`: audio-only tiers request no video,
otherwise the tier's ideal width/height/frame-rate. -/
def getConstraints (tier : QualityTier) : Constraints :=
  if tier.name == "audio-only" then { video := none, audio := true }
  else { video := some (tier.resolution.width, tier.resolution.height, tier.frameRate), audio := true }

/-- Session-level events relevant to the verified claims. -/
inductive EngineEvent where
  | localStreamReady (s : MStream)
  | connectionStatsUpdate (peerId : String)
deriving DecidableEq, Repr

/-- Outcome of `setupLocalStream`: the local stream (if acquired), the
quality manager state, the emitted events, the `getUserMedia` requests
issued in order, and whether the call re-threw the fallback error. -/
structure SetupResult where
  localStream : Option MStream
  qm : QMState
  events : List EngineEvent
  requests : List Constraints
  failed : Bool
deriving DecidableEq, Repr

/-- `setupLocalStream`, with `getUserMedia` abstracted as an oracle `gum`
(`none` = acquisition rejected): try the current tier's constraints; on
failure fall back once to `{ video: false, audio: true }`, force the tier
to `"audio-only"` and emit `local-stream-ready`; if the fallback also
fails, re-throw. -/
def setupLocalStream (gum : Constraints → Option MStream) (qm : QMState) : SetupResult :=
  let c1 := getConstraints qm.currentTier
  match gum c1 with
  | some s =>
    { localStream := some s, qm := qm, events := [EngineEvent.localStreamReady s],
      requests := [c1], failed := false }
  | none =>
    let c2 : Constraints := { video := none, audio := true }
    match gum c2 with
    | some s =>
      { localStream := some s, qm := (qm.setQuality "audio-only").1,
        events := [EngineEvent.localStreamReady s], requests := [c1, c2], failed := false }
    | none =>
      { localStream := none, qm := qm, events := [], requests := [c1, c2], failed := true }

/-! ## Stats sampler lifecycle (`startConnectionMonitoring` / `removePeer`)

The interval callback of `startConnectionMonitoring` captures the
`PeerConnection` object; each tick first reads the captured object's
`peer.connected` flag: when it is down the interval clears itself and
returns without emitting, otherwise it emits `connection-stats-updated`.
`removePeer` destroys the connection (dropping `connected`) and deletes the
map entry but does not touch the interval. -/

/-- A captured `simple-peer` connection object: identifier and its
`connected` flag. -/
structure MonConn where
  id : String
  connected : Bool
deriving DecidableEq, Repr

/-- Sampler-lifecycle slice of the engine state: the live connection
objects (as captured by interval closures) and the identifiers whose
sampler interval is still registered. -/
structure MonState where
  conns : List MonConn
  intervals : List String
deriving DecidableEq, Repr

/-- The captured connection object's `connected` flag for `peerId`. -/
def monConnected (st : MonState) (peerId : String) : Option Bool :=
  (st.conns.find? fun c => c.id == peerId).map fun c => c.connected

/-- `removePeer`: `connection.peer.destroy()` drops the captured object's
`connected` flag; the sampler interval is left registered. -/
def monRemovePeer (st : MonState) (peerId : String) : MonState :=
  { st with
    conns := st.conns.map fun c => if c.id == peerId then { c with connected := false } else c }

/-- One tick of the 5000 ms sampler interval for `peerId` (a no-op if the
interval is no longer registered): a disconnected peer clears the interval
and emits nothing, a connected peer emits `connection-stats-updated`. -/
def monTick (st : MonState) (peerId : String) : MonState × List EngineEvent :=
  if st.intervals.contains peerId then
    match monConnected st peerId with
    | some true => (st, [EngineEvent.connectionStatsUpdate peerId])
    | _ => ({ st with intervals := st.intervals.erase peerId }, [])
  else (st, [])

/-- Actions of the sampler-lifecycle model. -/
inductive MonAct where
  | removePeer (peerId : String)
  | tick (peerId : String)
deriving DecidableEq, Repr

/-- Run a sequence of sampler-lifecycle actions, accumulating events. -/
def runMon (st : MonState) : List MonAct → MonState × List EngineEvent
  | [] => (st, [])
  | MonAct.removePeer pid :: rest => runMon (monRemovePeer st pid) rest
  | MonAct.tick pid :: rest =>
    let p := monTick st pid
    let q := runMon p.1 rest
    (q.1, p.2 ++ q.2)

/-! ## Helper lemmas -/

/-- Tier names are unique in the catalog. -/
lemma catalog_name_inj (a : QualityTier) (ha : a ∈ QUALITY_TIERS)
    (b : QualityTier) (hb : b ∈ QUALITY_TIERS) (h : a.name = b.name) : a = b := by
  fin_cases ha <;> fin_cases hb <;> first | rfl | (exfalso; revert h; decide)

/-- The audio-only fallback is itself a catalog entry. -/
lemma floorTier_mem : floorTier ∈ QUALITY_TIERS := by decide

/-- `getRecommendedTier` written with `Option.getD`. -/
lemma getRecommendedTier_eq_getD (bandwidth : ℚ) :
    getRecommendedTier bandwidth =
      (QUALITY_TIERS.find? fun t => (t.totalBandwidth : ℚ) ≤ bandwidth * (4 / 5)).getD floorTier := by
  simp only [getRecommendedTier]
  cases h : QUALITY_TIERS.find? (fun t => (t.totalBandwidth : ℚ) ≤ bandwidth * (4 / 5)) <;>
    simp [h]

/-- `getRecommendedTier` always returns a catalog tier. -/
lemma getRecommendedTier_mem (bandwidth : ℚ) : getRecommendedTier bandwidth ∈ QUALITY_TIERS := by
  rw [getRecommendedTier_eq_getD]
  cases h : QUALITY_TIERS.find? (fun t => (t.totalBandwidth : ℚ) ≤ bandwidth * (4 / 5)) with
  | some t => simpa using List.mem_of_find?_eq_some h
  | none => simpa using floorTier_mem

/-- The average of `n` identical samples is that sample. -/
lemma getAverageBandwidth_replicate (ct : QualityTier) (n : ℕ) (hn : 0 < n) (c : ℚ) :
    (QMState.mk ct (List.replicate n c)).getAverageBandwidth = c := by
  have h0 : n ≠ 0 := by omega
  have h0q : (n : ℚ) ≠ 0 := by exact_mod_cast h0
  simp [QMState.getAverageBandwidth, h0, List.sum_replicate, nsmul_eq_mul,
    mul_div_cancel_left₀ c h0q]

/-- A sustained 2500 kbps estimate is buffered to 2000 and selects the
720p tier (1456 ≤ 2000 < 2328). -/
lemma getRecommendedTier_2500 :
    getRecommendedTier 2500 =
      { name := "720p", resolution := ⟨1280, 720⟩, frameRate := 30,
        videoBitrate := 1200, audioBitrate := 256, totalBandwidth := 1456 } := by
  norm_num [getRecommendedTier, QUALITY_TIERS, List.find?]

/-- A sustained 100 kbps estimate is buffered to 80 and selects the
audio-only tier through the catalog scan (64 ≤ 80). -/
lemma getRecommendedTier_100 : getRecommendedTier 100 = floorTier := by
  norm_num [getRecommendedTier, QUALITY_TIERS, List.find?, floorTier]

/-! ## Claim theorems -/

/-- C5: the tier catalog matches the spec's table bit-exactly
(1920×1080/30fps/2000+328=2328 down to audio-only 0+64=64), each tier's
total bandwidth is video plus audio bitrate, totals are strictly
decreasing from the richest tier to the audio-only floor, and the floor
tier has zero video bitrate and the minimum total bandwidth. -/
theorem tier_catalog_bit_exact_decreasing :
    (QUALITY_TIERS.map fun t =>
        ((t.resolution.width, t.resolution.height), t.frameRate, t.videoBitrate,
          t.audioBitrate, t.totalBandwidth))
      = [((1920, 1080), 30, 2000, 328, 2328),
         ((1280, 720), 30, 1200, 256, 1456),
         ((854, 480), 25, 800, 192, 992),
         ((426, 240), 20, 400, 128, 528),
         ((256, 144), 15, 150, 96, 246),
         ((0, 0), 0, 0, 64, 64)]
    ∧ (∀ t ∈ QUALITY_TIERS, t.totalBandwidth = t.videoBitrate + t.audioBitrate)
    ∧ List.Chain' (fun a b => b.totalBandwidth < a.totalBandwidth) QUALITY_TIERS
    ∧ floorTier ∈ QUALITY_TIERS
    ∧ floorTier.name = "audio-only"
    ∧ floorTier.videoBitrate = 0
    ∧ (∀ t ∈ QUALITY_TIERS, floorTier.totalBandwidth ≤ t.totalBandwidth) := by
  refine ⟨by decide, by decide, ?_, by decide, by decide, by decide, by decide⟩
  simp [QUALITY_TIERS, List.chain'_cons]

/-- C4: for every catalog tier `T`, `setQuality(T.name)` immediately
followed by `getCurrentTier()` returns `T` bit-exactly, and the call
leaves the bandwidth sample window unchanged. -/
theorem setQuality_then_getCurrentTier_roundtrip (st : QMState) (T : QualityTier)
    (hT : T ∈ QUALITY_TIERS) :
    ((st.setQuality T.name).1).getCurrentTier = T
    ∧ ((st.setQuality T.name).1).bandwidthHistory = st.bandwidthHistory := by
  have h : findTier T.name = some T := by fin_cases hT <;> decide
  simp [QMState.setQuality, h, QMState.getCurrentTier]

/-- Witness for C4 at the 720p tier. -/
theorem setQuality_then_getCurrentTier_roundtrip_witness :
    ({ name := "720p", resolution := ⟨1280, 720⟩, frameRate := 30, videoBitrate := 1200,
       audioBitrate := 256, totalBandwidth := 1456 } : QualityTier) ∈ QUALITY_TIERS
    ∧ (((QMState.init "1080p").setQuality "720p").1.getCurrentTier
        = { name := "720p", resolution := ⟨1280, 720⟩, frameRate := 30, videoBitrate := 1200,
            audioBitrate := 256, totalBandwidth := 1456 }
      ∧ ((QMState.init "1080p").setQuality "720p").1.bandwidthHistory
        = (QMState.init "1080p").bandwidthHistory) :=
  ⟨by decide, setQuality_then_getCurrentTier_roundtrip (QMState.init "1080p")
    { name := "720p", resolution := ⟨1280, 720⟩, frameRate := 30, videoBitrate := 1200,
      audioBitrate := 256, totalBandwidth := 1456 } (by decide)⟩

/-- C6 (counterexample): it is not the case that no tier's total bandwidth
is ≤ 80 — the audio-only tier's total is 64. -/
theorem audio_only_total_fits_80_budget :
    ¬ (∀ t ∈ QUALITY_TIERS, ¬ (t.totalBandwidth ≤ 80)) := by decide

/-- C6 (amended): a window of sustained 100 kbps samples (buffered
bandwidth 80) selects the audio-only tier, because audio-only is the one
tier whose total bandwidth (64) is ≤ 80 — the catalog scan finds it; the
fallback branch is not what selects it. -/
theorem sustained_100_selects_audio_only_via_scan (n : ℕ) (hn : 0 < n) :
    ((QMState.mk
        { name := "720p", resolution := ⟨1280, 720⟩, frameRate := 30, videoBitrate := 1200,
          audioBitrate := 256, totalBandwidth := 1456 }
        (List.replicate n 100)).adjustQuality).1.getCurrentTier = floorTier
    ∧ QUALITY_TIERS.filter (fun t => t.totalBandwidth ≤ 80) = [floorTier]
    ∧ (QUALITY_TIERS.find? fun t => (t.totalBandwidth : ℚ) ≤ 100 * (4 / 5)) = some floorTier := by
  refine ⟨?_, by decide, by norm_num [QUALITY_TIERS, List.find?, floorTier]⟩
  have havg := getAverageBandwidth_replicate
    { name := "720p", resolution := ⟨1280, 720⟩, frameRate := 30, videoBitrate := 1200,
      audioBitrate := 256, totalBandwidth := 1456 } n hn 100
  simp only [QMState.adjustQuality, havg, getRecommendedTier_100]
  rw [if_pos (by decide)]
  rfl

/-- Witness for C6 (amended) at a ten-sample window. -/
theorem sustained_100_selects_audio_only_via_scan_witness :
    0 < 10
    ∧ (((QMState.mk
          { name := "720p", resolution := ⟨1280, 720⟩, frameRate := 30, videoBitrate := 1200,
            audioBitrate := 256, totalBandwidth := 1456 }
          (List.replicate 10 100)).adjustQuality).1.getCurrentTier = floorTier
      ∧ QUALITY_TIERS.filter (fun t => t.totalBandwidth ≤ 80) = [floorTier]
      ∧ (QUALITY_TIERS.find? fun t => (t.totalBandwidth : ℚ) ≤ 100 * (4 / 5)) = some floorTier) :=
  ⟨by decide, sustained_100_selects_audio_only_via_scan 10 (by decide)⟩

/-- C2: when the debounce timer fires, the committed tier is the first
catalog tier (richest to poorest) whose total bandwidth is at most the
window mean times 0.8, the audio-only floor when none qualifies; and a
window of sustained 2500 kbps samples (mean 2500, buffered 2000) selects
the 1456-kbps 720p tier. -/
theorem timer_fire_mean_buffer_scan_selects_high :
    (∀ st : QMState, st.bandwidthHistory ≠ [] → st.currentTier ∈ QUALITY_TIERS →
      (st.adjustQuality).1.getCurrentTier =
        (QUALITY_TIERS.find? fun t =>
            (t.totalBandwidth : ℚ) ≤ (st.bandwidthHistory.sum / st.bandwidthHistory.length) * (4 / 5)).getD
          floorTier)
    ∧ (∀ n : ℕ, 0 < n →
        ((QMState.mk
            { name := "1080p", resolution := ⟨1920, 1080⟩, frameRate := 30, videoBitrate := 2000,
              audioBitrate := 328, totalBandwidth := 2328 }
            (List.replicate n 2500)).adjustQuality).1.getCurrentTier
          = { name := "720p", resolution := ⟨1280, 720⟩, frameRate := 30, videoBitrate := 1200,
              audioBitrate := 256, totalBandwidth := 1456 }) := by
  constructor
  · intro st hne hmem
    have hlen : st.bandwidthHistory.length ≠ 0 := by simpa [List.length_eq_zero] using hne
    have hfd : getRecommendedTier st.getAverageBandwidth
        = (QUALITY_TIERS.find? fun t =>
            (t.totalBandwidth : ℚ) ≤ (st.bandwidthHistory.sum / st.bandwidthHistory.length) * (4 / 5)).getD
          floorTier := by
      rw [show st.getAverageBandwidth = st.bandwidthHistory.sum / st.bandwidthHistory.length by
            simp [QMState.getAverageBandwidth, hlen],
        getRecommendedTier_eq_getD]
    simp only [QMState.adjustQuality, QMState.getCurrentTier]
    split_ifs with h
    · simpa using hfd
    · have heq : getRecommendedTier st.getAverageBandwidth = st.currentTier :=
        catalog_name_inj _ (getRecommendedTier_mem _) _ hmem (not_not.mp h)
      simpa [← heq] using hfd
  · intro n hn
    have havg := getAverageBandwidth_replicate
      { name := "1080p", resolution := ⟨1920, 1080⟩, frameRate := 30, videoBitrate := 2000,
        audioBitrate := 328, totalBandwidth := 2328 } n hn 2500
    simp only [QMState.adjustQuality, havg, getRecommendedTier_2500]
    rw [if_pos (by decide)]
    rfl

/-- Witness for C2: a two-sample window, and the 2500-kbps scenario at a
three-sample window. -/
theorem timer_fire_mean_buffer_scan_selects_high_witness :
    ((QMState.mk
        { name := "1080p", resolution := ⟨1920, 1080⟩, frameRate := 30, videoBitrate := 2000,
          audioBitrate := 328, totalBandwidth := 2328 } [800, 800]).bandwidthHistory ≠ []
      ∧ (QMState.mk
          { name := "1080p", resolution := ⟨1920, 1080⟩, frameRate := 30, videoBitrate := 2000,
            audioBitrate := 328, totalBandwidth := 2328 } [800, 800]).currentTier ∈ QUALITY_TIERS
      ∧ ((QMState.mk
          { name := "1080p", resolution := ⟨1920, 1080⟩, frameRate := 30, videoBitrate := 2000,
            audioBitrate := 328, totalBandwidth := 2328 } [800, 800]).adjustQuality).1.getCurrentTier =
          (QUALITY_TIERS.find? fun t =>
              (t.totalBandwidth : ℚ) ≤ (([800, 800] : List ℚ).sum / ([800, 800] : List ℚ).length) * (4 / 5)).getD
            floorTier)
    ∧ (0 < 3
      ∧ ((QMState.mk
            { name := "1080p", resolution := ⟨1920, 1080⟩, frameRate := 30, videoBitrate := 2000,
              audioBitrate := 328, totalBandwidth := 2328 }
            (List.replicate 3 2500)).adjustQuality).1.getCurrentTier
          = { name := "720p", resolution := ⟨1280, 720⟩, frameRate := 30, videoBitrate := 1200,
              audioBitrate := 256, totalBandwidth := 1456 }) :=
  ⟨⟨by decide, by decide,
      timer_fire_mean_buffer_scan_selects_high.1 _ (by decide) (by decide)⟩,
    ⟨by decide, timer_fire_mean_buffer_scan_selects_high.2 3 (by decide)⟩⟩

/-- The constructor's tier is drawn from the catalog. -/
lemma init_currentTier_mem (q : String) : (QMState.init q).currentTier ∈ QUALITY_TIERS := by
  simp only [QMState.init]
  cases h : findTier q with
  | some t =>
    simpa using List.mem_of_find?_eq_some (by simpa [findTier] using h)
  | none => simp only [Option.getD_none]; decide

/-- `setQuality` keeps the current tier inside the catalog. -/
lemma setQuality_currentTier_mem (st : QMState) (q : String)
    (h : st.currentTier ∈ QUALITY_TIERS) :
    ((st.setQuality q).1).currentTier ∈ QUALITY_TIERS := by
  simp only [QMState.setQuality]
  cases hf : findTier q with
  | some t => simpa using List.mem_of_find?_eq_some (by simpa [findTier] using hf)
  | none => simpa using h

/-- Every public operation keeps the current tier inside the catalog. -/
lemma applyOp_currentTier_mem (st : QMState) (op : QMOp)
    (h : st.currentTier ∈ QUALITY_TIERS) :
    (applyOp st op).currentTier ∈ QUALITY_TIERS := by
  cases op with
  | record bandwidth => simpa [applyOp, QMState.updateBandwidth] using h
  | timerFire =>
    simp only [applyOp, QMState.adjustQuality]
    split_ifs with hc
    · simpa using getRecommendedTier_mem _
    · simpa using h
  | setQ quality => exact setQuality_currentTier_mem st quality h

/-- The catalog-membership invariant over arbitrary operation sequences. -/
lemma runOps_currentTier_mem (ops : List QMOp) : ∀ st : QMState,
    st.currentTier ∈ QUALITY_TIERS → (runOps st ops).currentTier ∈ QUALITY_TIERS := by
  induction ops with
  | nil => intro st h; simpa [runOps] using h
  | cons op rest ih =>
    intro st h
    simp only [runOps]
    exact ih _ (applyOp_currentTier_mem st op h)

/-- C10: the current tier is always a catalog entry — the constructor maps
an unrecognized initial quality name to the 720p entry, `setQuality` with
an unknown name leaves the state unchanged and emits nothing, and after
any sequence of public operations `getCurrentTier` returns a catalog
tier. -/
theorem current_tier_always_in_catalog :
    (∀ q : String, findTier q = none →
      (QMState.init q).currentTier
        = { name := "720p", resolution := ⟨1280, 720⟩, frameRate := 30, videoBitrate := 1200,
            audioBitrate := 256, totalBandwidth := 1456 })
    ∧ (∀ (st : QMState) (q : String), findTier q = none → st.setQuality q = (st, []))
    ∧ (∀ (q : String) (ops : List QMOp),
        (runOps (QMState.init q) ops).getCurrentTier ∈ QUALITY_TIERS) := by
  refine ⟨?_, ?_, ?_⟩
  · intro q h
    simp [QMState.init, h]
    decide
  · intro st q h
    simp [QMState.setQuality, h]
  · intro q ops
    simpa [QMState.getCurrentTier] using runOps_currentTier_mem ops _ (init_currentTier_mem q)

/-- Witness for C10 at the unknown name `"4k"`. -/
theorem current_tier_always_in_catalog_witness :
    findTier "4k" = none
    ∧ (QMState.init "4k").currentTier
        = { name := "720p", resolution := ⟨1280, 720⟩, frameRate := 30, videoBitrate := 1200,
            audioBitrate := 256, totalBandwidth := 1456 }
    ∧ (QMState.init "4k").setQuality "4k" = (QMState.init "4k", [])
    ∧ (runOps (QMState.init "4k") [QMOp.setQ "audio-only", QMOp.record 500]).getCurrentTier
        ∈ QUALITY_TIERS :=
  ⟨by decide, current_tier_always_in_catalog.1 "4k" (by decide),
    current_tier_always_in_catalog.2.1 (QMState.init "4k") "4k" (by decide),
    current_tier_always_in_catalog.2.2 "4k" [QMOp.setQ "audio-only", QMOp.record 500]⟩

/-- C1 (code behavior at the failing input): with two connected peers whose
reports arrive as 300 kbps (peer2) then 2000 kbps (peer1), the signal the
room page feeds to `updateBandwidth` is the last report's 2000 — the
worst-link minimum the spec requires would be 300. -/
theorem signal_fed_is_last_report_not_worst_link :
    aggregatedSignal [⟨"peer2", some 300⟩, ⟨"peer1", some 2000⟩] 0 = 2000
    ∧ worstLinkSignal [⟨"peer2", some 300⟩, ⟨"peer1", some 2000⟩] = some 300
    ∧ ((QMState.init "720p").updateBandwidth
        (aggregatedSignal [⟨"peer2", some 300⟩, ⟨"peer1", some 2000⟩] 0)).bandwidthHistory
      = [2000]
    ∧ (2000 : ℚ) ≠ 300 := by
  refine ⟨by decide, ?_, by decide, by decide⟩
  decide

/-- `adjustQuality` emits at most one event. -/
lemma adjustQuality_events (st : QMState) :
    (st.adjustQuality).2 = [] ∨ ∃ e, (st.adjustQuality).2 = [e] := by
  simp only [QMState.adjustQuality]
  split_ifs <;> simp

/-- Invariants of a well-formed timed run: consecutive event times keep a
2000 ms gap; a pending deadline bounds every event time from below; with
no pending timer nothing is emitted within 2000 ms of the start instant;
and every event time lies strictly after the start instant. -/
lemma runTimed_aux (tr : List (ℕ × TAct)) : ∀ (st : TimedQM) (t0 : ℕ),
    wfTraceB t0 tr = true →
    (∀ d, st.timer = some d → d ≤ t0 + 2000) →
    List.Chain' (fun a b => a + 2000 ≤ b) ((runTimed st tr).2.map Prod.fst)
    ∧ (st.timer = none →
        ∀ te ∈ (runTimed st tr).2.map Prod.fst, t0 + 2000 < te)
    ∧ (∀ d, st.timer = some d →
        ∀ te ∈ (runTimed st tr).2.map Prod.fst, d ≤ te)
    ∧ (∀ te ∈ (runTimed st tr).2.map Prod.fst, t0 < te) := by
  induction tr with
  | nil =>
    intro st t0 _ _
    simp [runTimed]
  | cons p rest ih =>
    obtain ⟨t, a⟩ := p
    intro st t0 hwf hT
    have hwf' : t0 < t ∧ wfTraceB t rest = true := by
      simpa [wfTraceB, Bool.and_eq_true] using hwf
    obtain ⟨ht0t, hwfrest⟩ := hwf'
    cases a with
    | sample bw =>
      have hout : (runTimed st ((t, TAct.sample bw) :: rest)).2
          = (runTimed (recordSampleAt st t bw) rest).2 := by
        simp [runTimed, stepTimed]
      obtain ⟨ch, _, pend, _⟩ :=
        ih (recordSampleAt st t bw) t hwfrest
          (by intro d hd; simp [recordSampleAt] at hd; omega)
      rw [hout]
      have hlow : ∀ te ∈ (runTimed (recordSampleAt st t bw) rest).2.map Prod.fst,
          t + 2000 ≤ te := by
        intro te hte
        exact pend (t + 2000) (by simp [recordSampleAt]) te hte
      refine ⟨ch, ?_, ?_, ?_⟩
      · intro _ te hte
        have := hlow te hte
        omega
      · intro d hd te hte
        have h1 := hT d hd
        have h2 := hlow te hte
        omega
      · intro te hte
        have := hlow te hte
        omega
    | fire =>
      by_cases hg : st.timer = some t
      · have hstep : stepTimed st t TAct.fire
            = ((⟨(st.qm.adjustQuality).1, none⟩ : TimedQM), (st.qm.adjustQuality).2) := by
          simp [stepTimed, hg]
        obtain ⟨ch, far, _, _⟩ :=
          ih ⟨(st.qm.adjustQuality).1, none⟩ t hwfrest (by intro d hd; simp at hd)
        have hfar : ∀ te ∈ (runTimed (⟨(st.qm.adjustQuality).1, none⟩ : TimedQM) rest).2.map
            Prod.fst, t + 2000 < te := far rfl
        have hout : (runTimed st ((t, TAct.fire) :: rest)).2
            = (st.qm.adjustQuality).2.map (fun e => (t, e))
              ++ (runTimed (⟨(st.qm.adjustQuality).1, none⟩ : TimedQM) rest).2 := by
          simp [runTimed, hstep]
        rcases adjustQuality_events st.qm with hev | ⟨e, hev⟩
        · rw [hout, hev]
          simp only [List.map_nil, List.nil_append]
          refine ⟨ch, ?_, ?_, ?_⟩
          · intro hnone
            rw [hg] at hnone
            exact Option.noConfusion hnone
          · intro d hd te hte
            rw [hg] at hd
            injection hd with hd
            have := hfar te hte
            omega
          · intro te hte
            have := hfar te hte
            omega
        · rw [hout, hev]
          simp only [List.map_cons, List.map_nil, List.cons_append, List.nil_append]
          refine ⟨?_, ?_, ?_, ?_⟩
          · rw [List.chain'_cons']
            refine ⟨?_, ch⟩
            intro b hb
            have := hfar b (List.mem_of_mem_head? hb)
            omega
          · intro hnone
            rw [hg] at hnone
            exact Option.noConfusion hnone
          · intro d hd te hte
            rw [hg] at hd
            injection hd with hd
            rcases List.mem_cons.mp hte with rfl | hte'
            · omega
            · have := hfar te hte'
              omega
          · intro te hte
            rcases List.mem_cons.mp hte with rfl | hte'
            · omega
            · have := hfar te hte'
              omega
      · have hout : (runTimed st ((t, TAct.fire) :: rest)).2
            = (runTimed st rest).2 := by
          simp [runTimed, stepTimed, hg]
        obtain ⟨ch, near, pend, above⟩ := ih st t hwfrest
          (by intro d hd; have := hT d hd; omega)
        rw [hout]
        refine ⟨ch, ?_, pend, ?_⟩
        · intro hnone te hte
          have := near hnone te hte
          omega
        · intro te hte
          have := above te hte
          omega

/-- C3: over every well-formed timed trace of `updateBandwidth` calls and
timeout expiries, consecutive tier-change commits are at least 2000 ms
apart (at most one automatic tier change per 2000 ms); each
`updateBandwidth` call re-arms the single debounce timer 2000 ms out,
superseding any pending evaluation, and keeps the sample window bounded
by 10 entries. -/
theorem at_most_one_tier_change_per_2000ms (tr : List (ℕ × TAct)) (st : TimedQM) (t0 : ℕ)
    (hwf : wfTraceB t0 tr = true)
    (hT : ∀ d, st.timer = some d → d ≤ t0 + 2000) :
    List.Chain' (fun a b => a + 2000 ≤ b) ((runTimed st tr).2.map Prod.fst)
    ∧ (∀ (s : TimedQM) (t : ℕ) (bandwidth : ℚ),
        (recordSampleAt s t bandwidth).timer = some (t + 2000))
    ∧ (∀ (s : TimedQM) (t : ℕ) (bandwidth : ℚ), s.qm.bandwidthHistory.length ≤ 10 →
        (recordSampleAt s t bandwidth).qm.bandwidthHistory.length ≤ 10) := by
  refine ⟨(runTimed_aux tr st t0 hwf hT).1, fun s t bandwidth => rfl, ?_⟩
  intro s t bandwidth h
  simp only [recordSampleAt, QMState.updateBandwidth]
  split_ifs with hlen
  · simpa [List.length_tail] using h
  · simp only [List.length_append, List.length_singleton] at hlen ⊢
    omega

/-- Witness for C3: a concrete five-step trace with two successful fires. -/
theorem at_most_one_tier_change_per_2000ms_witness :
    wfTraceB 0 [(5, TAct.sample 100), (300, TAct.sample 3000), (2300, TAct.fire),
        (2400, TAct.sample 50), (4400, TAct.fire)] = true
    ∧ (List.Chain' (fun a b => a + 2000 ≤ b)
        ((runTimed (⟨QMState.init "720p", none⟩ : TimedQM)
            [(5, TAct.sample 100), (300, TAct.sample 3000), (2300, TAct.fire),
              (2400, TAct.sample 50), (4400, TAct.fire)]).2.map Prod.fst)
      ∧ (∀ (s : TimedQM) (t : ℕ) (bandwidth : ℚ),
          (recordSampleAt s t bandwidth).timer = some (t + 2000))
      ∧ (∀ (s : TimedQM) (t : ℕ) (bandwidth : ℚ), s.qm.bandwidthHistory.length ≤ 10 →
          (recordSampleAt s t bandwidth).qm.bandwidthHistory.length ≤ 10)) :=
  ⟨by decide,
    at_most_one_tier_change_per_2000ms _ (⟨QMState.init "720p", none⟩ : TimedQM) 0
      (by decide) (by intro d hd; simp at hd)⟩

/-- C8: if the initial capture acquisition fails, `setupLocalStream` falls
back exactly once to an audio-only acquisition (exactly two `getUserMedia`
requests are issued, the second being `{ video: false, audio: true }`),
forces the current tier to the audio-only floor, and emits
`local-stream-ready` carrying the audio-only stream; the fallback is not
retried. -/
theorem capture_fallback_forces_audio_only (gum : Constraints → Option MStream)
    (qm : QMState) (s : MStream)
    (h1 : gum (getConstraints qm.currentTier) = none)
    (h2 : gum { video := none, audio := true } = some s)
    (hconf : ∀ c s0, gum c = some s0 → s0.hasVideo = c.video.isSome ∧ s0.hasAudio = c.audio) :
    (setupLocalStream gum qm).requests
      = [getConstraints qm.currentTier, { video := none, audio := true }]
    ∧ (setupLocalStream gum qm).qm.currentTier = floorTier
    ∧ (setupLocalStream gum qm).events = [EngineEvent.localStreamReady s]
    ∧ s.hasVideo = false
    ∧ s.hasAudio = true
    ∧ (setupLocalStream gum qm).localStream = some s
    ∧ (setupLocalStream gum qm).failed = false := by
  have hs := hconf _ _ h2
  have hfloor : (qm.setQuality "audio-only").1.currentTier = floorTier := by
    have hfind : findTier "audio-only" = some floorTier := by decide
    simp [QMState.setQuality, hfind]
  refine ⟨?_, ?_, ?_, ?_, ?_, ?_, ?_⟩ <;>
    simp [setupLocalStream, h1, h2, hfloor, hs.1, hs.2]

/-- A conformant `getUserMedia` oracle for the C8 witness: video requests
are denied, audio-only requests succeed. -/
def gumDenyVideo : Constraints → Option MStream :=
  fun c => if c.video.isSome then none else some { hasVideo := false, hasAudio := c.audio }

/-- Witness for C8 with a video-denying acquisition oracle. -/
theorem capture_fallback_forces_audio_only_witness :
    gumDenyVideo (getConstraints (QMState.init "720p").currentTier) = none
    ∧ gumDenyVideo { video := none, audio := true }
        = some { hasVideo := false, hasAudio := true }
    ∧ (setupLocalStream gumDenyVideo (QMState.init "720p")).requests
        = [getConstraints (QMState.init "720p").currentTier, { video := none, audio := true }]
    ∧ (setupLocalStream gumDenyVideo (QMState.init "720p")).qm.currentTier = floorTier
    ∧ (setupLocalStream gumDenyVideo (QMState.init "720p")).events
        = [EngineEvent.localStreamReady { hasVideo := false, hasAudio := true }]
    ∧ (setupLocalStream gumDenyVideo (QMState.init "720p")).failed = false := by
  have hconf : ∀ c s0, gumDenyVideo c = some s0 →
      s0.hasVideo = c.video.isSome ∧ s0.hasAudio = c.audio := by
    intro c s0 h
    simp only [gumDenyVideo] at h
    by_cases hv : c.video.isSome = true
    · rw [if_pos hv] at h
      exact Option.noConfusion h
    · rw [if_neg hv] at h
      injection h with h
      subst h
      simp only [Bool.not_eq_true] at hv
      exact ⟨hv.symm, rfl⟩
  have hmain := capture_fallback_forces_audio_only gumDenyVideo (QMState.init "720p")
    { hasVideo := false, hasAudio := true } (by decide) (by decide) hconf
  exact ⟨by decide, by decide, hmain.1, hmain.2.1, hmain.2.2.1, hmain.2.2.2.2.2.2⟩

/-- `find?` over a connection list whose entry for `q` has been
disconnected. -/
lemma find_map_disconnect (l : List MonConn) (q pid : String) :
    (l.map fun c => if c.id == q then { c with connected := false } else c).find?
        (fun c => c.id == pid)
      = (l.find? fun c => c.id == pid).map
          fun c => if c.id == q then { c with connected := false } else c := by
  have hp : ((fun c => c.id == pid)
        ∘ fun c : MonConn => if c.id == q then { c with connected := false } else c)
      = fun c : MonConn => c.id == pid := by
    funext c
    by_cases h : (c.id == q) = true <;> simp [Function.comp, h]
  rw [List.find?_map, hp]

/-- After destroying `pid`, its captured connection never reads as
connected. -/
lemma monConnected_removePeer_self (st : MonState) (pid : String) :
    monConnected (monRemovePeer st pid) pid ≠ some true := by
  simp only [monConnected, monRemovePeer, find_map_disconnect]
  cases hf : st.conns.find? (fun c => c.id == pid) with
  | none => simp
  | some c =>
    have hc : c.id = pid := by simpa using List.find?_some hf
    simp [hc]

/-- Destroying any peer preserves a non-connected reading for `pid`. -/
lemma monConnected_removePeer_ne (st : MonState) (q pid : String)
    (h : monConnected st pid ≠ some true) :
    monConnected (monRemovePeer st q) pid ≠ some true := by
  simp only [monConnected, monRemovePeer, find_map_disconnect]
  simp only [monConnected] at h
  cases hf : st.conns.find? (fun c => c.id == pid) with
  | none => simp
  | some c =>
    rw [hf] at h
    have hcf : c.connected = false := by simpa using h
    by_cases hq : c.id = q <;> simp [hq, hcf]

/-- A sampler tick never changes the connection list. -/
lemma monTick_conns (st : MonState) (q : String) : ((monTick st q).1).conns = st.conns := by
  simp only [monTick]
  split_ifs with h
  · cases hc : monConnected st q with
    | none => simp
    | some b => cases b <;> simp
  · rfl

/-- The flag read is unchanged by a tick. -/
lemma monConnected_tick (st : MonState) (q pid : String) :
    monConnected ((monTick st q).1) pid = monConnected st pid := by
  simp only [monConnected, monTick_conns]

/-- A tick emits either nothing, or a single stats event for a connected
identifier. -/
lemma monTick_events (st : MonState) (q : String) :
    (monTick st q).2 = []
    ∨ ((monTick st q).2 = [EngineEvent.connectionStatsUpdate q]
        ∧ monConnected st q = some true) := by
  simp only [monTick]
  split_ifs with h
  · cases hc : monConnected st q with
    | none => simp
    | some b => cases b <;> simp [hc]
  · simp

/-- No stats event is emitted for an identifier whose captured connection
does not read as connected, whatever removals and ticks follow. -/
lemma runMon_no_stats (acts : List MonAct) : ∀ (st : MonState) (pid : String),
    monConnected st pid ≠ some true →
    EngineEvent.connectionStatsUpdate pid ∉ (runMon st acts).2 := by
  induction acts with
  | nil =>
    intro st pid _
    simp [runMon]
  | cons act rest ih =>
    intro st pid h
    cases act with
    | removePeer q =>
      simp only [runMon]
      exact ih _ pid (monConnected_removePeer_ne st q pid h)
    | tick q =>
      simp only [runMon]
      intro hmem
      rcases List.mem_append.mp hmem with hmem | hmem
      · rcases monTick_events st q with hev | ⟨hev, hcq⟩
        · rw [hev] at hmem
          simp at hmem
        · rw [hev] at hmem
          simp only [List.mem_singleton, EngineEvent.connectionStatsUpdate.injEq] at hmem
          exact h (hmem ▸ hcq)
      · exact ih _ pid (by rw [monConnected_tick]; exact h) hmem

/-- C9 (counterexample): `removePeer` does not cancel the sampler timer
synchronously — after destroying the connected peer "a", its interval is
still registered (only the connected flag is dropped). -/
theorem destroy_does_not_cancel_sampler_synchronously :
    (monRemovePeer ⟨[⟨"a", true⟩], ["a"]⟩ "a").intervals = ["a"]
    ∧ monConnected (monRemovePeer ⟨[⟨"a", true⟩], ["a"]⟩ "a") "a" = some false := by
  decide

/-- C9 (amended): after `removePeer(pid)` no `connection-stats-updated`
event for `pid` is ever emitted again — the destroyed connection reads as
disconnected, so every later sampler tick emits nothing for it — and the
next tick of `pid`'s sampler deregisters the interval lazily. -/
theorem no_stats_event_after_destroy (st : MonState) (pid : String) (acts : List MonAct) :
    EngineEvent.connectionStatsUpdate pid ∉ (runMon (monRemovePeer st pid) acts).2
    ∧ (monTick (monRemovePeer st pid) pid).1.intervals
        = (monRemovePeer st pid).intervals.erase pid := by
  refine ⟨runMon_no_stats acts _ pid (monConnected_removePeer_self st pid), ?_⟩
  simp only [monTick]
  split_ifs with h
  · cases hc : monConnected (monRemovePeer st pid) pid with
    | none => simp
    | some b =>
      cases b
      · simp
      · exact absurd hc (monConnected_removePeer_self st pid)
  · exact (List.erase_of_not_mem (by simpa using h)).symm

/-- C7 (code behavior at the failing input): with the mesh already holding
`maxPeers = 1` connections, `createPeer` for a new identifier still inserts
the new entry — the peer table grows past the cap and no error is
surfaced. -/
theorem createPeer_exceeds_maxPeers_unchecked :
    let st : MeshState :=
      { peers := [("a", { id := "a", isHost := true, quality := "720p" })],
        maxPeers := 1, currentQuality := "720p" }
    (createPeer st "b" false).peers
      = [("a", { id := "a", isHost := true, quality := "720p" }),
         ("b", { id := "b", isHost := false, quality := "720p" })]
    ∧ st.maxPeers < (createPeer st "b" false).peers.length := by decide
